import Mathlib

/-!
Verification of the span-alignment core of `bert_qa_ja/run_qa.py`
(repository `chopstickexe/nlp`, path `projects/bert-qa-ja/bert_qa_ja/run_qa.py`).

The embedding models the labelling loop of `prepare_train_features`, the
offset-mask loop of `prepare_validation_features`, the prediction/reference
formatting of `post_processing_function`, and the dataset `select` plumbing of
`__preprocess_train_dataset`. Fallible Python operations (out-of-range list
indexing, `list.index` misses, loop index underflow) are modelled with
`Option`, `none` standing for a raised exception.
-/

namespace BertQaJa

/-- Gold answer set of one example: the parallel arrays `answer_start` and
`text` of the dataset's `answers` column. -/
structure Answers where
  answer_start : List Nat
  text : List String
  deriving DecidableEq, Repr

/-- One tokenized chunk (feature) as produced by the fast tokenizer with
`return_overflowing_tokens` and `return_offsets_mapping`: token ids, per-token
sequence ids (`none` for special tokens, `some 0` / `some 1` for the two
segments), per-token character offsets, and the index of the source example
(the `overflow_to_sample_mapping` entry of this chunk). -/
structure Feature where
  input_ids : List Nat
  sequence_ids : List (Option Nat)
  offsets : List (Nat × Nat)
  sample_index : Nat
  deriving DecidableEq, Repr

/-- Loop `token_start_index = 0; while sequence_ids[token_start_index] != context_id:
token_start_index += 1` (run_qa.py:476-478). The unguarded indexing raises
`IndexError` when no token carries the context sequence id; modelled as
`none`. -/
def findCtxStart (sids : List (Option Nat)) (ctx : Nat) : Option Nat :=
  sids.findIdx? (· == some ctx)

/-- Loop `token_end_index = len(input_ids) - 1;
while sequence_ids[token_end_index] != context_id: token_end_index -= 1`
(run_qa.py:481-483). Out-of-range access, and the negative-index wrap that an
index underflow would cause in Python, are modelled as `none`. -/
def findCtxEnd (sids : List (Option Nat)) (ctx : Nat) (i : Nat) : Option Nat :=
  match sids[i]? with
  | none => none
  | some s =>
    if s = some ctx then some i
    else
      match i with
      | 0 => none
      | j + 1 => findCtxEnd sids ctx j

/-- Body of `startLoop` with an explicit iteration bound (`fuel` is the
number of positions left before the end of the list, which the Python loop
can never exceed because its condition requires
`token_start_index < len(offsets)`). -/
def startLoopAux (offsets : List (Nat × Nat)) (start_char : Nat) :
    Nat → Nat → Nat
  | 0, i => i
  | fuel + 1, i =>
    if h : i < offsets.length then
      if offsets[i].1 ≤ start_char then
        startLoopAux offsets start_char fuel (i + 1)
      else i
    else i

/-- Loop `while token_start_index < len(offsets) and
offsets[token_start_index][0] <= start_char: token_start_index += 1`
(run_qa.py:498-502): the loop's exit index (bounds check first, as in the
Python `and`). -/
def startLoop (offsets : List (Nat × Nat)) (start_char : Nat) (i : Nat) : Nat :=
  startLoopAux offsets start_char (offsets.length - i) i

/-- Loop `while offsets[token_end_index][1] >= end_char: token_end_index -= 1`
(run_qa.py:504-505): the loop's exit index. The loop has no lower bound
check; an underflow past index 0 (which would wrap to Python negative
indexing) is modelled as `none`. -/
def endLoop (offsets : List (Nat × Nat)) (end_char : Nat) : Nat → Option Nat
  | 0 =>
    match offsets[0]? with
    | none => none
    | some o => if end_char ≤ o.2 then none else some 0
  | j + 1 =>
    match offsets[j + 1]? with
    | none => none
    | some o => if end_char ≤ o.2 then endLoop offsets end_char j else some (j + 1)

/-- The per-chunk body of the labelling loop of `prepare_train_features`
(run_qa.py:453-506): the `(start_positions, end_positions)` entry appended for
one chunk, or `none` where the Python code would raise. -/
def labelFeature (pad_on_right : Bool) (cls_token_id : Nat)
    (answers : Answers) (f : Feature) : Option (Nat × Nat) :=
  match f.input_ids.findIdx? (· == cls_token_id) with
  | none => none
  | some cls_index =>
    if answers.answer_start.length = 0 then some (cls_index, cls_index)
    else
      match answers.answer_start[0]?, answers.text[0]? with
      | some start_char, some txt =>
        let end_char := start_char + txt.length
        let ctx := if pad_on_right then 1 else 0
        match findCtxStart f.sequence_ids ctx,
              findCtxEnd f.sequence_ids ctx (f.input_ids.length - 1) with
        | some token_start_index, some token_end_index =>
          match f.offsets[token_start_index]?, f.offsets[token_end_index]? with
          | some os, some oe =>
            if ¬(os.1 ≤ start_char ∧ end_char ≤ oe.2) then
              some (cls_index, cls_index)
            else
              let ts := startLoop f.offsets start_char token_start_index
              match endLoop f.offsets end_char token_end_index with
              | some te => some (ts - 1, te + 1)
              | none => none
          | _, _ => none
        | _, _ => none
      | _, _ => none

/-- Function `prepare_train_features` (run_qa.py:415-508) restricted to its labelling
loop: consumes the tokenizer output (one `Feature` per produced chunk, in
order) and the per-example `answers` column, and returns the
`start_positions` and `end_positions` columns; `none` where the Python code
would raise. -/
def prepare_train_features (pad_on_right : Bool) (cls_token_id : Nat)
    (exampleAnswers : List Answers) :
    List Feature → Option (List Nat × List Nat)
  | [] => some ([], [])
  | f :: fs =>
    (exampleAnswers[f.sample_index]?).bind fun a =>
      (labelFeature pad_on_right cls_token_id a f).bind fun se =>
        (prepare_train_features pad_on_right cls_token_id exampleAnswers
          fs).bind fun rest =>
          some (se.1 :: rest.1, se.2 :: rest.2)

/-- The offset overwrite of `prepare_validation_features` (run_qa.py:628-631):
position `k` keeps its offset when `sequence_ids[k]` equals the context index
and becomes "not applicable" (`none`) otherwise. A position of the offset list
beyond the end of `sequence_ids` (where Python would raise) makes the whole
chunk fail. -/
def maskOffsets (context_index : Nat) :
    List (Option Nat) → List (Nat × Nat) → Option (List (Option (Nat × Nat)))
  | _, [] => some []
  | [], _ :: _ => none
  | s :: sids, o :: offs =>
    match maskOffsets context_index sids offs with
    | none => none
    | some rest =>
      some ((if s = some context_index then some o else none) :: rest)

/-- The per-chunk body of `prepare_validation_features` (run_qa.py:615-631):
attaches the source example's id (`examples["id"][sample_mapping[i]]`) and the
masked offset mapping to the chunk. -/
def prepare_validation_feature (ids : List String) (pad_on_right : Bool)
    (f : Feature) : Option (String × List (Option (Nat × Nat))) :=
  let context_index := if pad_on_right then 1 else 0
  match ids[f.sample_index]? with
  | none => none
  | some eid =>
    match maskOffsets context_index f.sequence_ids f.offsets with
    | none => none
    | some m => some (eid, m)

/-- One formatted prediction record handed to the metric by
`post_processing_function` (run_qa.py:709-717); `no_answer_probability` is
`none` when the key is absent from the record. -/
structure FormattedPrediction where
  id : String
  prediction_text : String
  no_answer_probability : Option Rat
  deriving DecidableEq, Repr

/-- One gold reference record handed to the metric (run_qa.py:719). -/
structure Reference where
  id : String
  answers : Answers
  deriving DecidableEq, Repr

/-- The prediction formatting of `post_processing_function` (run_qa.py:708-717):
one record per entry of the predictions mapping, with a hard-coded
`no_answer_probability = 0.0` field exactly when `version_2_with_negative`. -/
def format_predictions (version_2_with_negative : Bool)
    (predictions : List (String × String)) : List FormattedPrediction :=
  if version_2_with_negative then
    predictions.map fun kv =>
      { id := kv.1, prediction_text := kv.2, no_answer_probability := some 0 }
  else
    predictions.map fun kv =>
      { id := kv.1, prediction_text := kv.2, no_answer_probability := none }

/-- The gold reference construction of `post_processing_function`
(run_qa.py:719): one `(id, answers)` record per example. -/
def make_references (examples : List (String × Answers)) : List Reference :=
  examples.map fun ex => { id := ex.1, answers := ex.2 }

/-- A candidate answer of the extractor: derived text and combined score.
Scores (sums of logits) are modelled as integers. -/
structure Candidate where
  text : String
  score : Int
  deriving DecidableEq, Repr

/-- Modelled from the spec: the best non-null candidate selection of
`postprocess_qa_predictions` (`bert_qa_ja/utils_qa.py`, which is not under
`src/`): candidates pooled over the example's chunks are ranked by score
descending with a stable tie-break, so the best is the highest-scoring
candidate, the earliest on ties. -/
def bestNonNull : List Candidate → Option Candidate
  | [] => none
  | c :: cs =>
    match bestNonNull cs with
    | none => some c
    | some b => some (if b.score > c.score then b else c)

/-- Modelled from the spec: the final-answer selection of
`postprocess_qa_predictions` (`bert_qa_ja/utils_qa.py`, which is not under
`src/`): when negative answers are allowed, compute
`score_diff = null_score - best_non_null_score` and return the empty string
with the null score recorded when `score_diff > null_score_diff_threshold`,
otherwise the best non-null candidate with its score. -/
def selectFinalAnswer (negative_answers_allowed : Bool)
    (null_score_diff_threshold null_score : Int)
    (candidates : List Candidate) : Option (String × Int) :=
  match bestNonNull candidates with
  | none => none
  | some best =>
    if negative_answers_allowed then
      if null_score - best.score > null_score_diff_threshold then
        some ("", null_score)
      else
        some (best.text, best.score)
    else
      some (best.text, best.score)

/-- Operation `Dataset.select(range(n))` (run_qa.py:527, 550, 641, 654, 662, 677): keeps
the first `n` rows in order, raising when fewer than `n` rows exist. -/
def select {α : Type} (n : Nat) (rows : List α) : Option (List α) :=
  if n ≤ rows.length then some (rows.take n) else none

/-- The dataset plumbing of `__preprocess_train_dataset` (run_qa.py:511-551)
(and the analogous eval/predict branches of `main`, run_qa.py:635-679): the
optional `max_*_samples` limit is applied once to the examples, the batched
map turns each example into its chunks keeping chunk order, and the same
limit is applied a second time to the chunk-level dataset. -/
def preprocess_with_limit {α β : Type} (limit : Option Nat)
    (examples : List α) (chunker : α → List β) : Option (List β) :=
  match limit with
  | none => some (examples.map chunker).flatten
  | some n =>
    match select n examples with
    | none => none
    | some kept => select n ((kept.map chunker).flatten)

/-! ### Loop lemmas -/

/-- One step of `startLoop` while the `while` condition holds. -/
theorem startLoop_step (offsets : List (Nat × Nat)) (start_char i : Nat)
    (h : i < offsets.length) (hle : offsets[i].1 ≤ start_char) :
    startLoop offsets start_char i = startLoop offsets start_char (i + 1) := by
  unfold startLoop
  have hf : offsets.length - i = (offsets.length - (i + 1)) + 1 := by omega
  rw [hf, startLoopAux, dif_pos h, if_pos hle]

/-- Halting of `startLoop` when the current start offset exceeds `start_char`. -/
theorem startLoop_halt (offsets : List (Nat × Nat)) (start_char i : Nat)
    (h : i < offsets.length) (hgt : ¬ offsets[i].1 ≤ start_char) :
    startLoop offsets start_char i = i := by
  unfold startLoop
  have hf : offsets.length - i = (offsets.length - (i + 1)) + 1 := by omega
  rw [hf, startLoopAux, dif_pos h, if_neg hgt]

/-- Halting of `startLoop` at the end of the offset list. -/
theorem startLoop_stop (offsets : List (Nat × Nat)) (start_char i : Nat)
    (h : ¬ i < offsets.length) :
    startLoop offsets start_char i = i := by
  unfold startLoop
  have hf : offsets.length - i = 0 := by omega
  rw [hf, startLoopAux]

/-- Started at a position whose start offset is ≤ `start_char`, the start
loop strictly advances, stays within bounds, and exits one past a position
whose start offset is still ≤ `start_char`. -/
theorem startLoop_spec (offsets : List (Nat × Nat)) (sc : Nat) :
    ∀ i (hi : i < offsets.length), offsets[i].1 ≤ sc →
      i < startLoop offsets sc i ∧ startLoop offsets sc i ≤ offsets.length ∧
      ∃ o, offsets[startLoop offsets sc i - 1]? = some o ∧ o.1 ≤ sc := by
  have main : ∀ n i (hi : i < offsets.length), offsets.length - i ≤ n →
      offsets[i].1 ≤ sc →
      i < startLoop offsets sc i ∧ startLoop offsets sc i ≤ offsets.length ∧
      ∃ o, offsets[startLoop offsets sc i - 1]? = some o ∧ o.1 ≤ sc := by
    intro n
    induction n with
    | zero => intro i hi hn hle; omega
    | succ n ih =>
      intro i hi hn hle
      rw [startLoop_step offsets sc i hi hle]
      by_cases h2 : i + 1 < offsets.length
      · by_cases hc : offsets[i + 1].1 ≤ sc
        · have h3 := ih (i + 1) h2 (by omega) hc
          exact ⟨by omega, h3.2.1, h3.2.2⟩
        · rw [startLoop_halt offsets sc (i + 1) h2 hc]
          exact ⟨by omega, by omega, offsets[i], List.getElem?_eq_getElem hi, hle⟩
      · rw [startLoop_stop offsets sc (i + 1) h2]
        exact ⟨by omega, by omega, offsets[i], List.getElem?_eq_getElem hi, hle⟩
  exact fun i hi hle => main offsets.length i hi (by omega) hle

/-- Started at a position whose end offset is ≥ `end_char`, and with some
position below it (position 0) whose end offset is < `end_char`, the end loop
exits normally, strictly retreats, and exits one below a position whose end
offset is still ≥ `end_char`. -/
theorem endLoop_spec (offsets : List (Nat × Nat)) (ec : Nat) :
    ∀ i (hi : i < offsets.length), ec ≤ offsets[i].2 →
      ∀ (h0 : 0 < offsets.length), offsets[0].2 < ec →
      ∃ te, endLoop offsets ec i = some te ∧ te < i ∧
        ∃ o, offsets[te + 1]? = some o ∧ ec ≤ o.2 := by
  intro i
  induction i with
  | zero =>
    intro hi hcond h0 hlt
    omega
  | succ j ih =>
    intro hi hcond h0 hlt
    have hj : j < offsets.length := by omega
    have hstep : endLoop offsets ec (j + 1) = endLoop offsets ec j := by
      simp [endLoop, List.getElem?_eq_getElem hi, hcond]
    rw [hstep]
    by_cases hcj : ec ≤ offsets[j].2
    · obtain ⟨te, h1, h2, h3⟩ := ih hj hcj h0 hlt
      exact ⟨te, h1, by omega, h3⟩
    · have hhalt : endLoop offsets ec j = some j := by
        cases j with
        | zero => simp [endLoop, List.getElem?_eq_getElem hj, hcj]
        | succ k => simp [endLoop, List.getElem?_eq_getElem hj, hcj]
      exact ⟨j, hhalt, by omega, offsets[j + 1], List.getElem?_eq_getElem hi, hcond⟩

/-- Unfolding of `labelFeature` on the gold-answer path, given the values of
all fallible lookups. -/
theorem labelFeature_gold (pad_on_right : Bool) (cls_token_id : Nat)
    (a : Answers) (f : Feature) (cls_index start_char : Nat) (txt : String)
    (tsi tei : Nat) (os oe : Nat × Nat)
    (hcls : f.input_ids.findIdx? (· == cls_token_id) = some cls_index)
    (hsc : a.answer_start[0]? = some start_char)
    (htxt : a.text[0]? = some txt)
    (hts : findCtxStart f.sequence_ids (if pad_on_right then 1 else 0) = some tsi)
    (hte : findCtxEnd f.sequence_ids (if pad_on_right then 1 else 0)
        (f.input_ids.length - 1) = some tei)
    (hos : f.offsets[tsi]? = some os)
    (hoe : f.offsets[tei]? = some oe) :
    labelFeature pad_on_right cls_token_id a f =
      if ¬(os.1 ≤ start_char ∧ start_char + txt.length ≤ oe.2) then
        some (cls_index, cls_index)
      else
        match endLoop f.offsets (start_char + txt.length) tei with
        | some te => some (startLoop f.offsets start_char tsi - 1, te + 1)
        | none => none := by
  have hne : ¬ a.answer_start.length = 0 := by
    rcases List.getElem?_eq_some_iff.mp hsc with ⟨hlt, _⟩
    omega
  simp only [labelFeature, hcls, hsc, htxt, hts, hte, hos, hoe, hne,
    if_false, ite_false]

/-- Concrete chunk used in counterexamples and witnesses:
`[CLS] q [SEP] c1 c2 [SEP]` with the two context tokens (positions 3 and 4)
covering characters `[0,5)` and `[5,10)` of the context. -/
def exFeature : Feature :=
  { input_ids := [101, 5, 102, 6, 7, 102],
    sequence_ids := [none, some 0, none, some 1, some 1, none],
    offsets := [(0, 0), (0, 0), (0, 0), (0, 5), (5, 10), (0, 0)],
    sample_index := 0 }

/-- Concrete chunk with no context-flagged token. -/
def noCtxFeature : Feature :=
  { input_ids := [101, 5],
    sequence_ids := [none, some 0],
    offsets := [(0, 0), (0, 0)],
    sample_index := 0 }

/-- Concrete gold answer set. -/
def exAnswers : Answers := { answer_start := [0], text := ["Tokyo"] }

/-- C1: counterexample. The gold answer `"abc"` at characters `[2,5)` lies
fully inside the context window of `exFeature` (context tokens 3..4 cover
characters `[0,10)`), yet the produced label is `(3,3)` and the character
span reconstructed through the offset mapping is `[0,5)`, not the gold
`[2,5)`: the round-trip is not the identity. -/
theorem C1_roundtrip_counterexample :
    findCtxStart exFeature.sequence_ids 1 = some 3 ∧
    findCtxEnd exFeature.sequence_ids 1 (exFeature.input_ids.length - 1) =
      some 4 ∧
    exFeature.offsets[3]? = some (0, 5) ∧
    exFeature.offsets[4]? = some (5, 10) ∧
    (0 ≤ 2 ∧ 2 + "abc".length ≤ 10) ∧
    labelFeature true 101 { answer_start := [2], text := ["abc"] } exFeature =
      some (3, 3) ∧
    ((0, 5) : Nat × Nat) ≠ (2, 2 + "abc".length) := by
  decide

/-- C1 (amended): for a training chunk whose context window fully contains
the first gold answer's character span, the character span reconstructed from
the produced (start, end) token label via the chunk's offsets contains the
gold span — `offsets[start].1 ≤ start_char` and
`end_char ≤ offsets[end].2` — but need not equal it. -/
theorem C1_label_span_covers
    (pad_on_right : Bool) (cls_token_id : Nat) (a : Answers) (f : Feature)
    (cls_index start_char : Nat) (txt : String) (tsi tei : Nat)
    (os oe o0 : Nat × Nat)
    (hcls : f.input_ids.findIdx? (· == cls_token_id) = some cls_index)
    (hsc : a.answer_start[0]? = some start_char)
    (htxt : a.text[0]? = some txt)
    (hts : findCtxStart f.sequence_ids (if pad_on_right then 1 else 0) = some tsi)
    (hte : findCtxEnd f.sequence_ids (if pad_on_right then 1 else 0)
        (f.input_ids.length - 1) = some tei)
    (hos : f.offsets[tsi]? = some os)
    (hoe : f.offsets[tei]? = some oe)
    (hwin : os.1 ≤ start_char ∧ start_char + txt.length ≤ oe.2)
    (h0 : f.offsets[0]? = some o0)
    (h0lt : o0.2 < start_char + txt.length) :
    ∃ s e, labelFeature pad_on_right cls_token_id a f = some (s, e) ∧
      ∃ oS oE, f.offsets[s]? = some oS ∧ f.offsets[e]? = some oE ∧
        oS.1 ≤ start_char ∧ start_char + txt.length ≤ oE.2 := by
  rw [labelFeature_gold pad_on_right cls_token_id a f cls_index start_char txt
    tsi tei os oe hcls hsc htxt hts hte hos hoe]
  rw [if_neg (not_not_intro hwin)]
  rcases List.getElem?_eq_some_iff.mp hos with ⟨htsi, hosv⟩
  rcases List.getElem?_eq_some_iff.mp hoe with ⟨htei, hoev⟩
  rcases List.getElem?_eq_some_iff.mp h0 with ⟨h0len, h0v⟩
  obtain ⟨hlt, hle, oS, hS, hSle⟩ :=
    startLoop_spec f.offsets start_char tsi htsi (by rw [hosv]; exact hwin.1)
  obtain ⟨te, hteq, htelt, oE, hE, hEge⟩ :=
    endLoop_spec f.offsets (start_char + txt.length) tei htei
      (by rw [hoev]; exact hwin.2) h0len (by rw [h0v]; exact h0lt)
  rw [hteq]
  exact ⟨startLoop f.offsets start_char tsi - 1, te + 1, rfl,
    oS, oE, hS, hE, hSle, hEge⟩

/-- C1 (witness): the amended round-trip containment at the concrete chunk
`exFeature` with gold answer `"abc"` at characters `[2,5)`. -/
theorem C1_label_span_covers_witness :
    ∃ s e,
      labelFeature true 101 { answer_start := [2], text := ["abc"] } exFeature =
        some (s, e) ∧
      ∃ oS oE, exFeature.offsets[s]? = some oS ∧
        exFeature.offsets[e]? = some oE ∧
        oS.1 ≤ 2 ∧ 2 + "abc".length ≤ oE.2 :=
  C1_label_span_covers true 101 { answer_start := [2], text := ["abc"] }
    exFeature 0 2 "abc" 3 4 (0, 5) (5, 10) (0, 0)
    (by decide) (by decide) (by decide) (by decide) (by decide)
    (by decide) (by decide) (by decide) (by decide) (by decide)

/-- C2: for a training chunk of an example with a gold answer, if the gold
character span is not fully contained in the window
`[offsets[tsi].1, offsets[tei].2)` spanned by the first and last
context-flagged tokens, both labels are the CLS index. -/
theorem C2_out_of_window_cls
    (pad_on_right : Bool) (cls_token_id : Nat) (a : Answers) (f : Feature)
    (cls_index start_char : Nat) (txt : String) (tsi tei : Nat)
    (os oe : Nat × Nat)
    (hcls : f.input_ids.findIdx? (· == cls_token_id) = some cls_index)
    (hsc : a.answer_start[0]? = some start_char)
    (htxt : a.text[0]? = some txt)
    (hts : findCtxStart f.sequence_ids (if pad_on_right then 1 else 0) = some tsi)
    (hte : findCtxEnd f.sequence_ids (if pad_on_right then 1 else 0)
        (f.input_ids.length - 1) = some tei)
    (hos : f.offsets[tsi]? = some os)
    (hoe : f.offsets[tei]? = some oe)
    (hnot : ¬(os.1 ≤ start_char ∧ start_char + txt.length ≤ oe.2)) :
    labelFeature pad_on_right cls_token_id a f = some (cls_index, cls_index) := by
  rw [labelFeature_gold pad_on_right cls_token_id a f cls_index start_char txt
    tsi tei os oe hcls hsc htxt hts hte hos hoe]
  rw [if_pos hnot]

/-- C2 (witness): the gold answer `"ab"` at characters `[20,22)` lies outside
`exFeature`'s context window `[0,10)`, and the chunk is labelled with the CLS
index `0` on both sides. -/
theorem C2_out_of_window_cls_witness :
    labelFeature true 101 { answer_start := [20], text := ["ab"] } exFeature =
      some (0, 0) :=
  C2_out_of_window_cls true 101 { answer_start := [20], text := ["ab"] }
    exFeature 0 20 "ab" 3 4 (0, 5) (5, 10)
    (by decide) (by decide) (by decide) (by decide) (by decide)
    (by decide) (by decide) (by decide)

/-- C3: for an example whose gold answer set is empty, every chunk receives
the CLS index as both the start and the end label. -/
theorem C3_no_answer_cls
    (pad_on_right : Bool) (cls_token_id : Nat) (a : Answers) (f : Feature)
    (cls_index : Nat)
    (hcls : f.input_ids.findIdx? (· == cls_token_id) = some cls_index)
    (ha : a.answer_start = []) :
    labelFeature pad_on_right cls_token_id a f = some (cls_index, cls_index) := by
  simp [labelFeature, hcls, ha]

/-- C3 (witness): a chunk of an example with no gold answers is labelled
`(0, 0)`, the CLS index of `exFeature`. -/
theorem C3_no_answer_cls_witness :
    labelFeature true 101 { answer_start := [], text := [] } exFeature =
      some (0, 0) :=
  C3_no_answer_cls true 101 { answer_start := [], text := [] } exFeature 0
    (by decide) (by decide)

/-- C5: for a training chunk of an example with a gold answer in which no
token is flagged as a context token, the labelling fails (raises) instead of
producing any label. -/
theorem C5_missing_context_fails
    (pad_on_right : Bool) (cls_token_id : Nat) (a : Answers) (f : Feature)
    (ha : a.answer_start ≠ [])
    (hno : ∀ x ∈ f.sequence_ids, x ≠ some (if pad_on_right then 1 else 0)) :
    labelFeature pad_on_right cls_token_id a f = none := by
  have hne : ¬ a.answer_start.length = 0 := by
    simpa [List.length_eq_zero] using ha
  have hfind : findCtxStart f.sequence_ids (if pad_on_right then 1 else 0) =
      none := by
    unfold findCtxStart
    rw [List.findIdx?_eq_none_iff]
    intro x hx
    simpa using hno x hx
  cases hcls : f.input_ids.findIdx? (· == cls_token_id) with
  | none => simp [labelFeature, hcls]
  | some cls_index =>
    cases hsc : a.answer_start[0]? with
    | none => simp [labelFeature, hcls, hne, hsc]
    | some start_char =>
      cases htxt : a.text[0]? with
      | none => simp [labelFeature, hcls, hne, hsc, htxt]
      | some txt => simp [labelFeature, hcls, hne, hsc, htxt, hfind]

/-- C5 (witness): a chunk with no context-flagged token and a gold answer
makes the labelling fail. -/
theorem C5_missing_context_fails_witness :
    labelFeature true 101 { answer_start := [0], text := ["a"] } noCtxFeature =
      none :=
  C5_missing_context_fails true 101 { answer_start := [0], text := ["a"] }
    noCtxFeature (by decide) (by decide)

/-- Element-wise description of `maskOffsets`: the result has one entry per
offset, keeping the offset where the sequence id is the context index and
holding `none` elsewhere. -/
theorem maskOffsets_spec (ctx : Nat) :
    ∀ (sids : List (Option Nat)) (offs : List (Nat × Nat))
      (res : List (Option (Nat × Nat))),
      maskOffsets ctx sids offs = some res →
      res.length = offs.length ∧
      ∀ k, k < offs.length →
        ∃ s o, sids[k]? = some s ∧ offs[k]? = some o ∧
          res[k]? = some (if s = some ctx then some o else none) := by
  intro sids offs
  induction offs generalizing sids with
  | nil =>
    intro res h
    cases sids <;> simp [maskOffsets] at h <;> simp [← h]
  | cons o os ih =>
    intro res h
    cases sids with
    | nil => simp [maskOffsets] at h
    | cons s ss =>
      cases hrec : maskOffsets ctx ss os with
      | none => simp [maskOffsets, hrec] at h
      | some rest =>
        simp only [maskOffsets, hrec, Option.some.injEq] at h
        obtain ⟨hlen, hspec⟩ := ih ss rest hrec
        subst h
        constructor
        · simp [hlen]
        · intro k hk
          cases k with
          | zero => exact ⟨s, o, by simp, by simp, by simp⟩
          | succ k' =>
            obtain ⟨s', o', h1, h2, h3⟩ := hspec k' (by simpa using hk)
            exact ⟨s', o', by simpa using h1, by simpa using h2,
              by simpa using h3⟩

/-- C4: the inference feature builder attaches the source example's id to the
chunk and overwrites the offset mapping, turning every position whose
sequence id differs from the context index into `none` and leaving every
context-flagged position's offset unchanged. -/
theorem C4_validation_offsets (ids : List String) (pad_on_right : Bool)
    (f : Feature) (eid : String) (m : List (Option (Nat × Nat)))
    (h : prepare_validation_feature ids pad_on_right f = some (eid, m)) :
    ids[f.sample_index]? = some eid ∧
    m.length = f.offsets.length ∧
    ∀ k, k < f.offsets.length →
      ∃ s o, f.sequence_ids[k]? = some s ∧ f.offsets[k]? = some o ∧
        m[k]? = some (if s = some (if pad_on_right then 1 else 0) then some o
          else none) := by
  simp only [prepare_validation_feature] at h
  cases hid : ids[f.sample_index]? with
  | none => rw [hid] at h; simp at h
  | some eid' =>
    rw [hid] at h
    cases hm : maskOffsets (if pad_on_right then 1 else 0) f.sequence_ids
        f.offsets with
    | none => rw [hm] at h; simp at h
    | some m' =>
      rw [hm] at h
      simp only [Option.some.injEq, Prod.mk.injEq] at h
      obtain ⟨he, hmm⟩ := h
      subst he hmm
      obtain ⟨h1, h2⟩ := maskOffsets_spec (if pad_on_right then 1 else 0)
        f.sequence_ids f.offsets m' hm
      exact ⟨rfl, h1, h2⟩

/-- C4 (witness): for the concrete chunk `exFeature`, the builder attaches
the example id and masks the three non-context positions while keeping the
two context offsets. -/
theorem C4_validation_offsets_witness :
    (["ex0"] : List String)[exFeature.sample_index]? = some "ex0" ∧
    ([none, none, none, some (0, 5), some (5, 10), none] :
        List (Option (Nat × Nat))).length = exFeature.offsets.length ∧
    ∀ k, k < exFeature.offsets.length →
      ∃ s o, exFeature.sequence_ids[k]? = some s ∧
        exFeature.offsets[k]? = some o ∧
        ([none, none, none, some (0, 5), some (5, 10), none] :
          List (Option (Nat × Nat)))[k]? =
          some (if s = some (if true then 1 else 0) then some o else none) :=
  C4_validation_offsets ["ex0"] true exFeature "ex0"
    [none, none, none, some (0, 5), some (5, 10), none] (by decide)

/-- C6: when negative answers are enabled, the extractor computes
`score_diff = null_score - best_non_null_score`; it returns the empty string
with the null score recorded when `score_diff > null_score_diff_threshold`,
and the best non-null candidate's text otherwise. -/
theorem C6_negative_answer_threshold
    (thr null_score : Int) (cands : List Candidate) (best : Candidate)
    (hbest : bestNonNull cands = some best) :
    (null_score - best.score > thr →
      selectFinalAnswer true thr null_score cands = some ("", null_score)) ∧
    (¬ null_score - best.score > thr →
      selectFinalAnswer true thr null_score cands =
        some (best.text, best.score)) := by
  constructor <;> intro hcmp <;> simp [selectFinalAnswer, hbest, hcmp]

/-- C6 (witness): with one candidate of score 1, null score 5 and threshold
2, the score difference 4 exceeds the threshold and the empty answer is
returned with the null score. -/
theorem C6_negative_answer_threshold_witness :
    bestNonNull [{ text := "Tokyo", score := 1 }] =
      some { text := "Tokyo", score := 1 } ∧
    (5 : Int) - 1 > 2 ∧
    selectFinalAnswer true 2 5 [{ text := "Tokyo", score := 1 }] =
      some ("", 5) :=
  ⟨by decide, by decide,
    (C6_negative_answer_threshold 2 5 [{ text := "Tokyo", score := 1 }]
      { text := "Tokyo", score := 1 } (by decide)).1 (by decide)⟩

/-- C7: the post-processing hands the metric one prediction record per
example, of shape `(id, prediction_text)` without negative answers and
`(id, prediction_text, no_answer_probability)` with them, together with one
gold reference record `(id, answers)` per example. -/
theorem C7_metric_payload (v2 : Bool) (preds : List (String × String))
    (examples : List (String × Answers)) :
    (format_predictions v2 preds).length = preds.length ∧
    (∀ (i : Nat) (p : String × String), preds[i]? = some p →
      (format_predictions v2 preds)[i]? =
        some ({ id := p.1, prediction_text := p.2,
                no_answer_probability := if v2 then some 0 else none }
          : FormattedPrediction)) ∧
    (make_references examples).length = examples.length ∧
    ∀ (i : Nat) (ex : String × Answers), examples[i]? = some ex →
      (make_references examples)[i]? =
        some ({ id := ex.1, answers := ex.2 } : Reference) := by
  refine ⟨?_, ?_, ?_, ?_⟩
  · cases v2 <;> simp [format_predictions]
  · intro i p hp
    cases v2 <;> simp [format_predictions, List.getElem?_map, hp]
  · simp [make_references]
  · intro i ex hex
    simp [make_references, List.getElem?_map, hex]

/-- C7 (witness): the formatted payload at a one-example run with negative
answers enabled. -/
theorem C7_metric_payload_witness :
    (format_predictions true [("q1", "Tokyo")]).length = 1 ∧
    (format_predictions true [("q1", "Tokyo")])[0]? =
      some ({ id := "q1", prediction_text := "Tokyo",
              no_answer_probability := some 0 } : FormattedPrediction) ∧
    (make_references [("q1", exAnswers)]).length = 1 ∧
    (make_references [("q1", exAnswers)])[0]? =
      some ({ id := "q1", answers := exAnswers } : Reference) := by
  obtain ⟨h1, h2, h3, h4⟩ :=
    C7_metric_payload true [("q1", "Tokyo")] [("q1", exAnswers)]
  exact ⟨h1, by simpa using h2 0 ("q1", "Tokyo") (by simp), h3,
    by simpa using h4 0 ("q1", exAnswers) (by simp)⟩

/-- C8: with `version_2_with_negative` enabled, every formatted prediction
handed to the metric carries `no_answer_probability = 0.0`, a constant
independent of the logits, the null score and the threshold decision. -/
theorem C8_no_answer_probability_zero (preds : List (String × String))
    (i : Nat) (r : FormattedPrediction)
    (h : (format_predictions true preds)[i]? = some r) :
    r.no_answer_probability = some 0 := by
  simp only [format_predictions, if_true, List.getElem?_map] at h
  cases hp : preds[i]? with
  | none => rw [hp] at h; simp at h
  | some p =>
    rw [hp] at h
    simp only [Option.map_some', Option.some.injEq] at h
    rw [← h]

/-- C8 (witness): the constant `no_answer_probability` at a concrete
formatted prediction. -/
theorem C8_no_answer_probability_zero_witness :
    ({ id := "q1", prediction_text := "Tokyo", no_answer_probability := some 0 }
      : FormattedPrediction).no_answer_probability = some 0 :=
  C8_no_answer_probability_zero [("q1", "Tokyo")] 0
    { id := "q1", prediction_text := "Tokyo", no_answer_probability := some 0 }
    (by decide)

/-- Success of `select` exactly on a dataset with at least `n` rows, and then
keeps the first `n`. -/
theorem select_eq_some {α : Type} (n : Nat) (rows out : List α)
    (h : select n rows = some out) : n ≤ rows.length ∧ out = rows.take n := by
  unfold select at h
  split at h
  · exact ⟨by assumption, by injection h with h; exact h.symm⟩
  · exact absurd h (by simp)

/-- C9: whenever a `max_*_samples` limit `n` is set, the preprocessed dataset
is truncated a second time, after chunk creation, to its first `n` chunks in
chunk order; consequently the retained set can keep only a strict prefix of
the chunks of the last retained example (witnessed by the second conjunct:
example `1` keeps its chunk `(1, 0)` but loses its chunk `(1, 1)`). -/
theorem C9_second_truncation :
    (∀ {α β : Type} (n : Nat) (examples : List α) (chunker : α → List β)
        (out : List β),
      preprocess_with_limit (some n) examples chunker = some out →
      out = ((examples.take n).map chunker).flatten.take n ∧
        out.length = n) ∧
    (∃ (examples : List Nat) (chunker : Nat → List (Nat × Nat)) (n : Nat)
        (out : List (Nat × Nat)) (lastEx : Nat) (kept dropped : Nat × Nat),
      preprocess_with_limit (some n) examples chunker = some out ∧
      lastEx ∈ examples.take n ∧
      kept ∈ chunker lastEx ∧ kept ∈ out ∧
      dropped ∈ chunker lastEx ∧ dropped ∉ out) := by
  constructor
  · intro α β n examples chunker out h
    simp only [preprocess_with_limit] at h
    cases hsel : select n examples with
    | none => rw [hsel] at h; simp at h
    | some kept =>
      rw [hsel] at h
      have h2 : select n ((kept.map chunker).flatten) = some out := h
      obtain ⟨hn1, hk⟩ := select_eq_some n examples kept hsel
      obtain ⟨hn2, ho⟩ := select_eq_some n ((kept.map chunker).flatten) out h2
      subst hk
      refine ⟨ho, ?_⟩
      rw [ho]
      simp only [List.length_take]
      omega
  · refine ⟨[0, 1, 2], fun i => [(i, 0), (i, 1)], 3,
      [(0, 0), (0, 1), (1, 0)], 1, (1, 0), (1, 1), rfl, ?_, ?_, ?_, ?_, ?_⟩
      <;> decide

/-- C9 (witness): the universally quantified first conjunct at a concrete
instance: with limit 2 over two single-chunk examples, the retained chunks
are the first two in chunk order. -/
theorem C9_second_truncation_witness :
    ([10, 20] : List Nat) =
      ((([10, 20, 30].take 2).map (fun i => [i])).flatten.take 2 :
        List Nat) ∧
    ([10, 20] : List Nat).length = 2 :=
  C9_second_truncation.1 2 [10, 20, 30] (fun i => [i]) [10, 20] rfl

/-- C10: `prepare_train_features` appends exactly one `start_positions` entry
and one `end_positions` entry per produced chunk, so whenever it returns, the
two label lists have length equal to the number of chunks. -/
theorem C10_positions_per_chunk (pad_on_right : Bool) (cls_token_id : Nat)
    (exampleAnswers : List Answers) :
    ∀ (features : List Feature) (ss es : List Nat),
      prepare_train_features pad_on_right cls_token_id exampleAnswers
        features = some (ss, es) →
      ss.length = features.length ∧ es.length = features.length := by
  intro features
  induction features with
  | nil =>
    intro ss es h
    simp only [prepare_train_features, Option.some.injEq, Prod.mk.injEq] at h
    obtain ⟨h1, h2⟩ := h
    simp [← h1, ← h2]
  | cons f fs ih =>
    intro ss es h
    simp only [prepare_train_features, Option.bind_eq_some] at h
    obtain ⟨a, ha, se, hse, rest, hrest, heq⟩ := h
    simp only [Option.some.injEq, Prod.mk.injEq] at heq
    obtain ⟨h1, h2⟩ := heq
    obtain ⟨hlen1, hlen2⟩ := ih rest.1 rest.2 (by simpa using hrest)
    simp [← h1, ← h2, hlen1, hlen2]

/-- C10 (witness): a two-chunk batch yields label lists of length two. -/
theorem C10_positions_per_chunk_witness :
    ([0, 0] : List Nat).length = [exFeature, exFeature].length ∧
    ([0, 0] : List Nat).length = [exFeature, exFeature].length :=
  C10_positions_per_chunk true 101 [{ answer_start := [], text := [] }]
    [exFeature, exFeature] [0, 0] [0, 0] (by decide)

end BertQaJa
